import Mathlib

/-!
Verification of `src/Split/split_video.py`, a tool that splits a media file
into equal-duration segments by invoking ffprobe (duration query) and ffmpeg
(stream-copy extraction).

The Python code is shallowly embedded as follows:
* External-process behaviour is an input: the ffprobe stdout/stderr text and
  the drawn random identifier are parameters of the embedded functions.
* Python floats are modelled as exact rationals.
* Side effects (child-process invocations and prints) are recorded in an
  event trace; exceptions become an outcome value alongside the partial trace.
-/

/-- Model of Python `str.strip()`: remove leading and trailing whitespace. -/
def pyStrip (s : String) : String :=
  ⟨((s.data.dropWhile Char.isWhitespace).reverse.dropWhile Char.isWhitespace).reverse⟩

/-- Decimal value of a list of digit characters, most significant first. -/
def digitsVal (l : List Char) : Nat :=
  l.foldl (fun a c => 10 * a + (c.toNat - 48)) 0

/-- Model of Python `float(s)` on the decimal grammar
`[+|-] digits | [+|-] digits . digits` (at least one digit overall);
exponents, `inf`/`nan` and underscores are not modelled.  Returns `none`
exactly when Python `float` would raise its numeric-parse `ValueError`
on such a string. -/
def parseFloat (s : String) : Option ℚ :=
  let l := s.data
  let (neg, l2) : Bool × List Char :=
    match l with
    | '-' :: t => (true, t)
    | '+' :: t => (false, t)
    | t => (false, t)
  let intPart := l2.takeWhile Char.isDigit
  let rest := l2.dropWhile Char.isDigit
  let val : Option ℚ :=
    match rest with
    | [] => if intPart.isEmpty then none else some (digitsVal intPart)
    | '.' :: frac =>
        if frac.all Char.isDigit && !(intPart.isEmpty && frac.isEmpty) then
          some ((digitsVal intPart : ℚ) + (digitsVal frac : ℚ) / (10 : ℚ) ^ frac.length)
        else none
    | _ => none
  val.map (fun v => if neg then -v else v)

/-- Fuel-driven decimal rendering, most significant digit first. -/
def toDecimalAux : Nat → Nat → List Char
  | 0, _ => []
  | _, 0 => []
  | fuel + 1, n + 1 =>
      toDecimalAux fuel ((n + 1) / 10) ++ [Nat.digitChar ((n + 1) % 10)]

/-- Model of Python `str(n)` for a non-negative integer: decimal digits. -/
def decimalRepr (n : Nat) : String :=
  if n = 0 then "0" else ⟨toDecimalAux n n⟩

/-- Index of the last occurrence of `c` in `l`, or `-1` if absent
(Python `str.rfind`). -/
def lastIdx (c : Char) (l : List Char) : Int :=
  match l.reverse.findIdx? (· = c) with
  | some k => (l.length : Int) - 1 - k
  | none => -1

/-- Model of Python `os.path.splitext` (posix rules): split off the extension
at the last dot that lies after the last path separator, unless every
character between the separator and that dot is itself a dot (leading-dot
files such as `.bashrc` keep their name whole). -/
def splitext (p : String) : String × String :=
  let l := p.data
  let sepIndex := lastIdx '/' l
  let dotIndex := lastIdx '.' l
  if dotIndex > sepIndex then
    let between := (l.drop (sepIndex + 1).toNat).take (dotIndex - sepIndex - 1).toNat
    if between.any (· != '.') then
      (⟨l.take dotIndex.toNat⟩, ⟨l.drop dotIndex.toNat⟩)
    else (p, "")
  else (p, "")

/-- The two failure modes of `get_video_duration`.  In Python both surface as
`ValueError`, but they arise at distinct places: `invalidMedia` is the
explicit `raise ValueError(...)` on empty ffprobe output (the message carries
the stripped stderr text), `formatError` is the numeric-parse failure raised
by `float(...)` on the non-empty, non-numeric text it was given. -/
inductive ProbeError where
  | invalidMedia (msg : String)
  | formatError (raw : String)
  deriving DecidableEq

/-- Embedding of `get_video_duration` (src/Split/split_video.py:37-67).
`stdout`/`stderr` are the text streams produced by the external ffprobe
invocation. -/
def get_video_duration (stdout stderr : String) : Except ProbeError ℚ :=
  let raw_output := pyStrip stdout
  if raw_output = "" then
    .error (.invalidMedia ("❌ ffprobe failed. stderr: " ++ pyStrip stderr))
  else
    match parseFloat raw_output with
    | some d => .ok d
    | none => .error (.formatError raw_output)

/-- Observable side effects of one run of `split_video`: child-process
invocations and progress prints, in program order. -/
inductive Event where
  | probe (inputFile : String)
  | progress (segNum : Nat) (total : Int) (outputFile : String)
  | extract (startTime segDur : ℚ) (inputFile outputFile : String)
  | summary (count : Int) (randId : Nat)
  deriving DecidableEq

/-- How a run of `split_video` ends: `none` is normal completion, otherwise
the uncaught Python exception. -/
inductive RunError where
  | probeError (e : ProbeError)
  | zeroDivisionError
  deriving DecidableEq

/-- The output filename built at src/Split/split_video.py:103:
`f"{base_name}_{rand_id}_{i+1}.mp4"` — note the literal `.mp4` suffix. -/
def output_file (base_name : String) (rand_id : Nat) (i : Nat) : String :=
  base_name ++ "_" ++ decimalRepr rand_id ++ "_" ++ decimalRepr (i + 1) ++ ".mp4"

/-- Embedding of `split_video` (src/Split/split_video.py:69-111).
`probeOut`/`probeErr` are the ffprobe streams, `rand_id` the value returned
by `random.randint(1000, 9999)`, and `extractExit` the exit statuses of the
per-segment ffmpeg invocations — the Python code discards the
`subprocess.run` result, which is why this argument is never consulted.
Returns the event trace up to termination or uncaught exception, together
with the outcome. -/
def split_video (probeOut probeErr : String) (rand_id : Nat)
    (extractExit : Nat → Int) (input_file : String) (split_count : Int) :
    List Event × Option RunError :=
  match get_video_duration probeOut probeErr with
  | .error e => ([Event.probe input_file], some (.probeError e))
  | .ok duration =>
    if split_count = 0 then ([Event.probe input_file], some .zeroDivisionError)
    else
      let segment_duration := duration / (split_count : ℚ)
      let base_name := (splitext input_file).1
      let body := (List.range split_count.toNat).flatMap (fun i =>
        let start_time := (i : ℚ) * segment_duration
        let out := output_file base_name rand_id i
        let _ := extractExit i
        [Event.progress (i + 1) split_count out,
         Event.extract start_time segment_duration input_file out])
      (Event.probe input_file :: body ++ [Event.summary split_count rand_id],
       none)

/-- The extraction requests contained in a trace, in order:
(start time, segment duration, output path). -/
def extractions (evs : List Event) : List (ℚ × ℚ × String) :=
  evs.filterMap (fun e =>
    match e with
    | .extract s d _ o => some (s, d, o)
    | _ => none)

/-- The output paths requested from the extractor, in order. -/
def outFiles (evs : List Event) : List String :=
  (extractions evs).map (fun x => x.2.2)

/-- The start times requested from the extractor, in order. -/
def startTimes (evs : List Event) : List ℚ :=
  (extractions evs).map (fun x => x.1)

/-- The segment durations requested from the extractor, in order. -/
def segDurations (evs : List Event) : List ℚ :=
  (extractions evs).map (fun x => x.2.1)

lemma extractions_nil : extractions [] = [] := rfl

lemma extractions_probe (f : String) (l : List Event) :
    extractions (Event.probe f :: l) = extractions l := rfl

lemma extractions_progress (a : Nat) (b : Int) (c : String) (l : List Event) :
    extractions (Event.progress a b c :: l) = extractions l := rfl

lemma extractions_extract (s d : ℚ) (f o : String) (l : List Event) :
    extractions (Event.extract s d f o :: l) = (s, d, o) :: extractions l := rfl

lemma extractions_summary (a : Int) (b : Nat) (l : List Event) :
    extractions (Event.summary a b :: l) = extractions l := rfl

lemma extractions_append (l1 l2 : List Event) :
    extractions (l1 ++ l2) = extractions l1 ++ extractions l2 :=
  List.filterMap_append l1 l2 _

lemma toDecimalAux_eq : ∀ fuel n, n ≤ fuel →
    toDecimalAux fuel n = ((Nat.digits 10 n).map Nat.digitChar).reverse := by
  intro fuel
  induction fuel with
  | zero =>
    intro n hn
    have : n = 0 := Nat.le_zero.mp hn
    subst this
    simp [toDecimalAux]
  | succ fuel ih =>
    intro n hn
    match n with
    | 0 => simp [toDecimalAux]
    | n + 1 =>
      have hdiv : (n + 1) / 10 < n + 1 := Nat.div_lt_self (Nat.succ_pos n) (by norm_num)
      have hle : (n + 1) / 10 ≤ fuel := by omega
      rw [toDecimalAux, ih _ hle,
        Nat.digits_def' (by norm_num : (1:ℕ) < 10) (Nat.succ_pos n),
        List.map_cons, List.reverse_cons]

/-- Decimal decoding of a digit-character string, inverse to `decimalRepr`. -/
def decodeDigits (l : List Char) : Nat :=
  Nat.ofDigits 10 (l.reverse.map (fun c => c.toNat - 48))

lemma digitChar_toNat_sub (d : Nat) (h : d < 10) :
    (Nat.digitChar d).toNat - 48 = d := by
  interval_cases d <;> rfl

lemma decode_decimalRepr (n : Nat) : decodeDigits (decimalRepr n).data = n := by
  by_cases h : n = 0
  · subst h; rfl
  · rw [decimalRepr, if_neg h]
    show decodeDigits (toDecimalAux n n) = n
    rw [toDecimalAux_eq n n le_rfl]
    unfold decodeDigits
    rw [List.reverse_reverse, List.map_map]
    have hself : (Nat.digits 10 n).map ((fun c => c.toNat - 48) ∘ Nat.digitChar) =
        Nat.digits 10 n := by
      have : ∀ d ∈ Nat.digits 10 n,
          ((fun c => c.toNat - 48) ∘ Nat.digitChar) d = id d := by
        intro d hd
        exact digitChar_toNat_sub d (Nat.digits_lt_base (by norm_num) hd)
      rw [List.map_congr_left this, List.map_id]
    rw [hself, Nat.ofDigits_digits]

lemma decimalRepr_injective : Function.Injective decimalRepr := by
  intro m n h
  have := congrArg (fun s => decodeDigits (String.data s)) h
  simpa [decode_decimalRepr] using this

lemma decimalRepr_length_four (r : Nat) (h1 : 1000 ≤ r) (h2 : r ≤ 9999) :
    (decimalRepr r).length = 4 := by
  have hr : r ≠ 0 := by omega
  rw [decimalRepr, if_neg hr]
  show (toDecimalAux r r).length = 4
  rw [toDecimalAux_eq r r le_rfl, List.length_reverse, List.length_map,
    Nat.digits_len 10 r (by norm_num) hr]
  have : Nat.log 10 r = 3 :=
    Nat.log_eq_of_pow_le_of_lt_pow (by norm_num; omega) (by norm_num; omega)
  omega

lemma output_file_inj (base : String) (r : Nat) :
    Function.Injective (output_file base r) := by
  intro i j h
  unfold output_file at h
  have hdata := congrArg String.data h
  simp only [String.data_append, List.append_assoc] at hdata
  have h2 := List.append_cancel_left (List.append_cancel_left
    (List.append_cancel_left (List.append_cancel_left hdata)))
  have h3 : (decimalRepr (i + 1)).data = (decimalRepr (j + 1)).data :=
    List.append_cancel_right h2
  have h4 : decimalRepr (i + 1) = decimalRepr (j + 1) := by
    cases hi : decimalRepr (i + 1) with
    | mk di =>
      cases hj : decimalRepr (j + 1) with
      | mk dj =>
        rw [hi, hj] at h3
        exact congrArg String.mk h3
  have := decimalRepr_injective h4
  omega

lemma extractions_body (l : List Nat) (sd : ℚ) (t : Int) (file base : String)
    (r : Nat) :
    extractions (l.flatMap fun i =>
        [Event.progress (i + 1) t (output_file base r i),
         Event.extract ((i : ℚ) * sd) sd file (output_file base r i)]) =
      l.map fun i : Nat => ((i : ℚ) * sd, sd, output_file base r i) := by
  induction l with
  | nil => rfl
  | cons a l ih =>
    rw [List.flatMap_cons, extractions_append, ih, List.map_cons]
    rfl

lemma split_video_ok (po pe : String) (r : Nat) (e : Nat → Int) (f : String)
    (n : Int) (d : ℚ) (hd : get_video_duration po pe = .ok d) (hn : n ≠ 0) :
    split_video po pe r e f n =
      (Event.probe f :: ((List.range n.toNat).flatMap fun i =>
          [Event.progress (i + 1) n (output_file (splitext f).1 r i),
           Event.extract ((i : ℚ) * (d / (n : ℚ))) (d / (n : ℚ)) f
             (output_file (splitext f).1 r i)])
        ++ [Event.summary n r], none) := by
  unfold split_video
  rw [hd]
  simp [hn]

lemma extractions_split_video (po pe : String) (r : Nat) (e : Nat → Int)
    (f : String) (n : Int) (d : ℚ) (hd : get_video_duration po pe = .ok d)
    (hn : n ≠ 0) :
    extractions (split_video po pe r e f n).1 =
      (List.range n.toNat).map fun i : Nat =>
        ((i : ℚ) * (d / (n : ℚ)), d / (n : ℚ), output_file (splitext f).1 r i) := by
  rw [split_video_ok po pe r e f n d hd hn]
  show extractions ((Event.probe f :: _) ++ [Event.summary n r]) = _
  rw [List.cons_append, extractions_probe, extractions_append, extractions_body,
    extractions_summary, extractions_nil, List.append_nil]

lemma startTimes_split_video (po pe : String) (r : Nat) (e : Nat → Int)
    (f : String) (n : Int) (d : ℚ) (hd : get_video_duration po pe = .ok d)
    (hn : n ≠ 0) :
    startTimes (split_video po pe r e f n).1 =
      (List.range n.toNat).map fun i : Nat => (i : ℚ) * (d / (n : ℚ)) := by
  unfold startTimes
  rw [extractions_split_video po pe r e f n d hd hn, List.map_map]
  rfl

lemma segDurations_split_video (po pe : String) (r : Nat) (e : Nat → Int)
    (f : String) (n : Int) (d : ℚ) (hd : get_video_duration po pe = .ok d)
    (hn : n ≠ 0) :
    segDurations (split_video po pe r e f n).1 =
      (List.range n.toNat).map fun _ : Nat => d / (n : ℚ) := by
  unfold segDurations
  rw [extractions_split_video po pe r e f n d hd hn, List.map_map]
  rfl

lemma outFiles_split_video (po pe : String) (r : Nat) (e : Nat → Int)
    (f : String) (n : Int) (d : ℚ) (hd : get_video_duration po pe = .ok d)
    (hn : n ≠ 0) :
    outFiles (split_video po pe r e f n).1 =
      (List.range n.toNat).map (output_file (splitext f).1 r) := by
  unfold outFiles
  rw [extractions_split_video po pe r e f n d hd hn, List.map_map]
  rfl

/-- C1 counterexample: splitting the input `clip.mkv` does NOT yield outputs
carrying the original `.mkv` extension.  The first segment is named
`clip_1234_1.mp4` (the code hardcodes `.mp4` at
src/Split/split_video.py:103), which differs from the name the claim
prescribes, `clip_1234_1.mkv`. -/
theorem C1_mkv_counterexample :
    outFiles (split_video "600" "" 1234 (fun _ => 0) "clip.mkv" 2).1 =
      ["clip_1234_1.mp4", "clip_1234_2.mp4"] ∧
    (splitext "clip.mkv").2 = ".mkv" ∧
    "clip_1234_1.mp4" ≠
      (splitext "clip.mkv").1 ++ "_" ++ decimalRepr 1234 ++ "_" ++
        decimalRepr 1 ++ (splitext "clip.mkv").2 :=
  ⟨by decide, by decide, by decide⟩

/-- C1 (amended): for every input path and segment index i with a successful
probe, the output path passed to the extractor is the input path's base name
(extension stripped), an underscore, the run identifier, an underscore, the
1-based segment number i+1, and then the literal extension `.mp4`, regardless
of the input file's original extension. -/
theorem C1_output_naming (po pe : String) (r : Nat) (e : Nat → Int)
    (f : String) (n : Int) (d : ℚ) (hd : get_video_duration po pe = .ok d)
    (hn : 0 < n) :
    ∀ i, i < n.toNat →
      (outFiles (split_video po pe r e f n).1)[i]? =
        some ((splitext f).1 ++ "_" ++ decimalRepr r ++ "_" ++
          decimalRepr (i + 1) ++ ".mp4") := by
  intro i hi
  rw [outFiles_split_video po pe r e f n d hd (by omega),
    List.getElem?_map, List.getElem?_range hi]
  rfl

/-- C1 witness: the amended naming law evaluated on `clip.mkv` split in two,
first segment. -/
theorem C1_output_naming_witness :
    (outFiles (split_video "600" "" 1234 (fun _ => 0) "clip.mkv" 2).1)[0]? =
      some ((splitext "clip.mkv").1 ++ "_" ++ decimalRepr 1234 ++ "_" ++
        decimalRepr 1 ++ ".mp4") :=
  C1_output_naming "600" "" 1234 (fun _ => 0) "clip.mkv" 2 600 rfl (by decide)
    0 (by decide)

/-- C2: with a successful probe of duration d and positive segment count n,
segment i is requested with start time i * (d / n) and duration d / n; in
particular a 600-second input split in 3 starts at 0, 200, 400 with
duration 200 each, and split in 1 yields exactly one extraction starting at
0 covering the whole duration. -/
theorem C2_start_times (po pe : String) (r : Nat) (e : Nat → Int) (f : String)
    (n : Int) (d : ℚ) (hd : get_video_duration po pe = .ok d) (hdpos : 0 < d)
    (hn : 0 < n) :
    (∀ i, i < n.toNat →
      (extractions (split_video po pe r e f n).1)[i]? =
        some ((i : ℚ) * (d / (n : ℚ)), d / (n : ℚ),
          output_file (splitext f).1 r i)) ∧
    startTimes (split_video "600" "" r e f 3).1 = [0, 200, 400] ∧
    segDurations (split_video "600" "" r e f 3).1 = [200, 200, 200] ∧
    extractions (split_video "600" "" r e f 1).1 =
      [(0, 600, output_file (splitext f).1 r 0)] := by
  refine ⟨fun i hi => ?_, ?_, ?_, ?_⟩
  · rw [extractions_split_video po pe r e f n d hd (by omega),
      List.getElem?_map, List.getElem?_range hi]
    rfl
  · rw [startTimes_split_video "600" "" r e f 3 600 rfl (by decide),
      show (3 : Int).toNat = 3 from rfl]
    norm_num [List.range_succ]
  · rw [segDurations_split_video "600" "" r e f 3 600 rfl (by decide),
      show (3 : Int).toNat = 3 from rfl]
    norm_num [List.range_succ, List.replicate_succ]
  · rw [extractions_split_video "600" "" r e f 1 600 rfl (by decide)]
    norm_num [List.range_succ]

/-- C2 witness: the start-time law evaluated on a 600-second probe split in
3, at segment index 1. -/
theorem C2_start_times_witness :
    (extractions (split_video "600" "" 1234 (fun _ => 0) "in.mp4" 3).1)[1]? =
      some ((1 : ℚ) * (600 / (3 : ℚ)), 600 / (3 : ℚ),
        output_file (splitext "in.mp4").1 1234 1) :=
  (C2_start_times "600" "" 1234 (fun _ => 0) "in.mp4" 3 600 rfl (by decide)
    (by decide)).1 1 (by decide)

/-- C3: with a successful probe of positive duration d and positive segment
count n, the segment durations requested from the extractor sum exactly to
d (in the exact rational arithmetic standing in for floats). -/
theorem C3_durations_sum (po pe : String) (r : Nat) (e : Nat → Int)
    (f : String) (n : Int) (d : ℚ) (hd : get_video_duration po pe = .ok d)
    (hdpos : 0 < d) (hn : 0 < n) :
    (segDurations (split_video po pe r e f n).1).sum = d := by
  rw [segDurations_split_video po pe r e f n d hd (by omega),
    List.map_const', List.sum_replicate, List.length_range, nsmul_eq_mul]
  have hcast : ((n.toNat : ℕ) : ℚ) = (n : ℚ) := by
    have h1 : ((n.toNat : ℤ)) = n := Int.toNat_of_nonneg hn.le
    exact_mod_cast congrArg (fun z : ℤ => (z : ℚ)) h1
  rw [hcast, mul_comm, div_mul_cancel₀ d (by exact_mod_cast hn.ne')]

/-- C3 witness: the sum law evaluated on a 600-second probe split in 3. -/
theorem C3_durations_sum_witness :
    (segDurations (split_video "600" "" 1234 (fun _ => 0) "in.mp4" 3).1).sum =
      600 :=
  C3_durations_sum "600" "" 1234 (fun _ => 0) "in.mp4" 3 600 rfl (by decide)
    (by decide)

/-- C4: with a successful probe of positive duration d and positive segment
count n, the requested start times are strictly increasing, the windows of
length d / n are pairwise non-overlapping (each earlier window ends no later
than a later one starts), and each window ends exactly where the next
begins. -/
theorem C4_windows (po pe : String) (r : Nat) (e : Nat → Int) (f : String)
    (n : Int) (d : ℚ) (hd : get_video_duration po pe = .ok d) (hdpos : 0 < d)
    (hn : 0 < n) :
    List.Pairwise (· < ·) (startTimes (split_video po pe r e f n).1) ∧
    List.Pairwise (fun a b => a + d / (n : ℚ) ≤ b)
      (startTimes (split_video po pe r e f n).1) ∧
    List.Chain' (fun a b => a + d / (n : ℚ) = b)
      (startTimes (split_video po pe r e f n).1) := by
  have hq : 0 < d / (n : ℚ) := div_pos hdpos (by exact_mod_cast hn)
  rw [startTimes_split_video po pe r e f n d hd (by omega)]
  refine ⟨?_, ?_, ?_⟩
  · refine List.Pairwise.map _ (fun a b hab => ?_) (List.pairwise_lt_range n.toNat)
    exact mul_lt_mul_of_pos_right (by exact_mod_cast hab) hq
  · refine List.Pairwise.map _ (fun a b hab => ?_) (List.pairwise_lt_range n.toNat)
    have h1 : ((a : ℚ) + 1) ≤ (b : ℚ) := by exact_mod_cast hab
    calc (a : ℚ) * (d / (n : ℚ)) + d / (n : ℚ)
        = ((a : ℚ) + 1) * (d / (n : ℚ)) := by ring
      _ ≤ (b : ℚ) * (d / (n : ℚ)) := mul_le_mul_of_nonneg_right h1 hq.le
  · rw [List.chain'_map]
    match hk : n.toNat with
    | 0 => simp
    | k + 1 =>
      refine (List.chain'_range_succ _ k).mpr (fun m _ => ?_)
      push_cast
      ring

/-- C4 witness: the window laws evaluated on a 600-second probe split in 3. -/
theorem C4_windows_witness :
    List.Pairwise (· < ·)
      (startTimes (split_video "600" "" 1234 (fun _ => 0) "in.mp4" 3).1) ∧
    List.Pairwise (fun a b => a + (600 : ℚ) / (3 : ℚ) ≤ b)
      (startTimes (split_video "600" "" 1234 (fun _ => 0) "in.mp4" 3).1) ∧
    List.Chain' (fun a b => a + (600 : ℚ) / (3 : ℚ) = b)
      (startTimes (split_video "600" "" 1234 (fun _ => 0) "in.mp4" 3).1) :=
  C4_windows "600" "" 1234 (fun _ => 0) "in.mp4" 3 600 rfl (by decide)
    (by decide)

/-- C5: whenever the ffprobe standard output is empty after stripping, the
probe fails with the invalid-media error whose message carries the stripped
standard-error text, the run aborts right after the probe, and no extraction
is ever requested. -/
theorem C5_empty_probe_output (po pe : String) (r : Nat) (e : Nat → Int)
    (f : String) (n : Int) (h : pyStrip po = "") :
    split_video po pe r e f n =
      ([Event.probe f], some (.probeError (.invalidMedia
        ("❌ ffprobe failed. stderr: " ++ pyStrip pe)))) ∧
    extractions (split_video po pe r e f n).1 = [] := by
  have hg : get_video_duration po pe =
      .error (.invalidMedia ("❌ ffprobe failed. stderr: " ++ pyStrip pe)) := by
    unfold get_video_duration
    rw [h]
    rfl
  refine ⟨?_, ?_⟩ <;> unfold split_video <;> rw [hg]
  rfl

/-- C5 witness: an ffprobe run printing only whitespace with diagnostic text
on stderr. -/
theorem C5_empty_probe_output_witness :
    split_video " " "boom" 1234 (fun _ => 0) "in.mp4" 2 =
      ([Event.probe "in.mp4"], some (.probeError (.invalidMedia
        ("❌ ffprobe failed. stderr: " ++ pyStrip "boom")))) ∧
    extractions (split_video " " "boom" 1234 (fun _ => 0) "in.mp4" 2).1 = [] :=
  C5_empty_probe_output " " "boom" 1234 (fun _ => 0) "in.mp4" 2 rfl

/-- C6: whenever the stripped ffprobe standard output is non-empty but not
parseable as a float, the probe fails with the numeric-parse error (a
distinct failure path from the invalid-media one, carrying the offending
text), the run aborts right after the probe, and no extraction is ever
requested. -/
theorem C6_nonnumeric_probe_output (po pe : String) (r : Nat) (e : Nat → Int)
    (f : String) (n : Int) (h1 : pyStrip po ≠ "")
    (h2 : parseFloat (pyStrip po) = none) :
    split_video po pe r e f n =
      ([Event.probe f], some (.probeError (.formatError (pyStrip po)))) ∧
    extractions (split_video po pe r e f n).1 = [] := by
  have hg : get_video_duration po pe = .error (.formatError (pyStrip po)) := by
    unfold get_video_duration
    rw [if_neg h1, h2]
  refine ⟨?_, ?_⟩ <;> unfold split_video <;> rw [hg]
  rfl

/-- C6 witness: ffprobe printing the non-numeric text abc. -/
theorem C6_nonnumeric_probe_output_witness :
    split_video "abc" "" 1234 (fun _ => 0) "in.mp4" 2 =
      ([Event.probe "in.mp4"],
        some (.probeError (.formatError (pyStrip "abc")))) ∧
    extractions (split_video "abc" "" 1234 (fun _ => 0) "in.mp4" 2).1 = [] :=
  C6_nonnumeric_probe_output "abc" "" 1234 (fun _ => 0) "in.mp4" 2
    (by decide) rfl

/-- C7: once the probe has succeeded and the segment count n is positive,
the extractor is invoked exactly n times, in strictly increasing index order
(the i-th extraction is exactly the one for segment index i), the trace ends
with the summary report, the run terminates normally, and the whole result
is independent of the extraction exit statuses, which the code discards. -/
theorem C7_loop_completes (po pe : String) (r : Nat) (e : Nat → Int)
    (f : String) (n : Int) (d : ℚ) (hd : get_video_duration po pe = .ok d)
    (hn : 0 < n) :
    (split_video po pe r e f n).2 = none ∧
    extractions (split_video po pe r e f n).1 =
      (List.range n.toNat).map (fun i : Nat =>
        ((i : ℚ) * (d / (n : ℚ)), d / (n : ℚ),
          output_file (splitext f).1 r i)) ∧
    (extractions (split_video po pe r e f n).1).length = n.toNat ∧
    (split_video po pe r e f n).1.getLast? = some (Event.summary n r) ∧
    ∀ e2 : Nat → Int, split_video po pe r e2 f n = split_video po pe r e f n := by
  have hne : n ≠ 0 := by omega
  refine ⟨?_, extractions_split_video po pe r e f n d hd hne, ?_, ?_, ?_⟩
  · rw [split_video_ok po pe r e f n d hd hne]
  · rw [extractions_split_video po pe r e f n d hd hne, List.length_map,
      List.length_range]
  · rw [split_video_ok po pe r e f n d hd hne]
    exact List.getLast?_concat _
  · intro e2
    rw [split_video_ok po pe r e2 f n d hd hne,
      split_video_ok po pe r e f n d hd hne]

/-- C7 witness: a 600-second probe split in 3, with two different
(equally discarded) exit-status environments. -/
theorem C7_loop_completes_witness :
    (split_video "600" "" 1234 (fun _ => 0) "in.mp4" 3).2 = none ∧
    extractions (split_video "600" "" 1234 (fun _ => 0) "in.mp4" 3).1 =
      (List.range (3 : Int).toNat).map (fun i : Nat =>
        ((i : ℚ) * ((600 : ℚ) / ((3 : Int) : ℚ)), (600 : ℚ) / ((3 : Int) : ℚ),
          output_file (splitext "in.mp4").1 1234 i)) ∧
    (extractions (split_video "600" "" 1234 (fun _ => 0) "in.mp4" 3).1).length =
      (3 : Int).toNat ∧
    (split_video "600" "" 1234 (fun _ => 0) "in.mp4" 3).1.getLast? =
      some (Event.summary 3 1234) ∧
    ∀ e2 : Nat → Int, split_video "600" "" 1234 e2 "in.mp4" 3 =
      split_video "600" "" 1234 (fun _ => 0) "in.mp4" 3 :=
  C7_loop_completes "600" "" 1234 (fun _ => 0) "in.mp4" 3 600 rfl (by decide)

/-- C8: with the run identifier drawn once in [1000, 9999], its decimal form
has exactly 4 digits, every output filename of the run embeds this same
identifier (all filenames are instances of the one naming scheme built from
the single identifier r), and the filenames for the distinct segment indices
are pairwise distinct. -/
theorem C8_run_identifier (po pe : String) (r : Nat) (e : Nat → Int)
    (f : String) (n : Int) (d : ℚ) (hd : get_video_duration po pe = .ok d)
    (hn : 0 < n) (hr1 : 1000 ≤ r) (hr2 : r ≤ 9999) :
    (decimalRepr r).length = 4 ∧
    outFiles (split_video po pe r e f n).1 =
      (List.range n.toNat).map (output_file (splitext f).1 r) ∧
    (outFiles (split_video po pe r e f n).1).Nodup := by
  refine ⟨decimalRepr_length_four r hr1 hr2,
    outFiles_split_video po pe r e f n d hd (by omega), ?_⟩
  rw [outFiles_split_video po pe r e f n d hd (by omega)]
  exact List.Nodup.map (output_file_inj (splitext f).1 r)
    (List.nodup_range n.toNat)

/-- C8 witness: identifier 1234 on a 600-second probe split in 3. -/
theorem C8_run_identifier_witness :
    (decimalRepr 1234).length = 4 ∧
    outFiles (split_video "600" "" 1234 (fun _ => 0) "in.mp4" 3).1 =
      (List.range (3 : Int).toNat).map (output_file (splitext "in.mp4").1 1234) ∧
    (outFiles (split_video "600" "" 1234 (fun _ => 0) "in.mp4" 3).1).Nodup :=
  C8_run_identifier "600" "" 1234 (fun _ => 0) "in.mp4" 3 600 rfl (by decide)
    (by decide) (by decide)

/-- C9: for segment count 0, no validation happens at the boundary of
split_video: the duration probe always runs first (the probe is the first
and only traced call, and a failing probe surfaces its own error, not a
validation error), and when the probe succeeds the run dies on the
division duration / 0 before any extraction is requested. -/
theorem C9_zero_count (r : Nat) (e : Nat → Int) (f : String) :
    (∀ po pe d, get_video_duration po pe = .ok d →
      split_video po pe r e f 0 =
        ([Event.probe f], some .zeroDivisionError)) ∧
    (∀ po pe err, get_video_duration po pe = .error err →
      split_video po pe r e f 0 =
        ([Event.probe f], some (.probeError err))) := by
  constructor <;> intro po pe x hx <;> unfold split_video <;> rw [hx]
  rfl

/-- C9 witness: a successful 600-second probe with segment count 0 ends in
the division-by-zero error with no extraction. -/
theorem C9_zero_count_witness :
    split_video "600" "" 1234 (fun _ => 0) "in.mp4" 0 =
      ([Event.probe "in.mp4"], some .zeroDivisionError) :=
  (C9_zero_count 1234 (fun _ => 0) "in.mp4").1 "600" "" 600 rfl

/-- C10: for a negative segment count with a successful probe of positive
duration, no error is raised: the division yields a negative segment
duration, the loop body never runs, no extraction is requested and no
output file is created, and the run completes normally with a summary that
reports the negative count. -/
theorem C10_negative_count (po pe : String) (r : Nat) (e : Nat → Int)
    (f : String) (n : Int) (d : ℚ) (hd : get_video_duration po pe = .ok d)
    (hdpos : 0 < d) (hn : n < 0) :
    split_video po pe r e f n =
      ([Event.probe f, Event.summary n r], none) ∧
    d / (n : ℚ) < 0 ∧
    extractions (split_video po pe r e f n).1 = [] := by
  have hne : n ≠ 0 := by omega
  have h0 : n.toNat = 0 := Int.toNat_of_nonpos hn.le
  have htr : split_video po pe r e f n =
      ([Event.probe f, Event.summary n r], none) := by
    rw [split_video_ok po pe r e f n d hd hne, h0]
    rfl
  refine ⟨htr, ?_, ?_⟩
  · exact div_neg_of_pos_of_neg hdpos (by exact_mod_cast hn)
  · rw [htr]
    rfl

/-- C10 witness: a successful 600-second probe with segment count -2. -/
theorem C10_negative_count_witness :
    split_video "600" "" 1234 (fun _ => 0) "in.mp4" (-2) =
      ([Event.probe "in.mp4", Event.summary (-2) 1234], none) ∧
    (600 : ℚ) / ((-2 : Int) : ℚ) < 0 ∧
    extractions (split_video "600" "" 1234 (fun _ => 0) "in.mp4" (-2)).1 = [] :=
  C10_negative_count "600" "" 1234 (fun _ => 0) "in.mp4" (-2) 600 rfl
    (by decide) (by decide)
